import Mathlib

/-!
Verification of the gene-filter cascade of `05_Figure6_PE_Aged_pseudotime.ipynb`
(Yoshida-Labs/Xenium_Mouse_PE_Aging).

The notebook's helper functions `get_grouped_data`, `filter_genes_by_conditions`,
`calc_avg_distance` and `calc_fib_fraction`, together with the `log2fc`
computation of the Figure-6A cell, are embedded shallowly over exact rationals.

Modelling conventions, matching the Python source:
* pandas/numpy floats become `ℚ`; a pandas mean of an empty selection is `NaN`
  and every `NaN` comparison is `False`, which is embedded by explicit
  emptiness guards at each place an empty selection can reach a comparison;
* `pd.cut(pt, bins, labels=range(n), include_lowest=True)` raises when the
  bin edges are not strictly increasing (empty subset, zero bins, or
  `pt.min() == pt.max()`); a raised exception is embedded as `none`,
  propagated by the caller exactly as an exception aborts the Python call;
* `np.gradient(y, x)` raises on arrays shorter than 2, and on the uniformly
  spaced bin centers produced here it reduces to central differences with
  one-sided differences at both ends (numpy collapses a constant-spacing
  coordinate array to the scalar-spacing case);
* `scipy.ndimage.gaussian_filter1d(v, sigma=2)` is correlation with a
  normalized Gaussian kernel truncated at radius `int(4 * 2 + 0.5) = 8`,
  with `reflect` boundary handling.  The kernel weights are transcendental
  (values of `exp`), so the weight function `w : ℤ → ℚ` is kept as an
  explicit parameter of every definition that smooths; the radius-8 window
  and the reflect boundary rule are embedded concretely.  Every theorem
  below holds for all weight functions, hence for the Gaussian weights;
* `scipy.spatial.KDTree.query(·, k=1)` returns the smallest Euclidean
  distance to the indexed points; the Euclidean metric (an irrational
  square root) is kept as an explicit parameter `dist`, and the
  nearest-neighbour minimum over the indexed points is embedded concretely.
-/

namespace Xenium

/-- One row of the AnnData table: cell-type label (`obs["cell_type2"]`),
niche label (`obs["cell_niche"]`), pseudotime (`obs["pseudotime"]`), spatial
coordinates (`obsm["spatial"]`), and the cell's expression row of
`expr_all` as a function from gene name to value. -/
structure Cell where
  cellType : String
  niche : String
  pt : ℚ
  pos : ℚ × ℚ
  expr : String → ℚ

/-- The in-memory input: the cell table and the gene universe
(`adata.var_names`, the column order of `expr_all`). -/
structure Input where
  cells : List Cell
  genes : List String

/-- The notebook's parameter block (the globals of the `Parameters` cell). -/
structure Config where
  fibroticNiches : List String
  remoteNiche : String
  numBins : ℕ
  minStd : ℚ
  minFractionTarget : ℚ
  fibFractionThreshold : ℚ
  earlyPhaseBins : ℕ
  foldChangeThreshold : ℚ

/-- Arithmetic mean of a list of rationals; `0` on the empty list (callers
guard emptiness wherever pandas/numpy would produce `NaN`). -/
def mean (l : List ℚ) : ℚ := l.sum / l.length

/-- The float literal `1e-9` of the fold-change denominator. -/
def eps : ℚ := 1 / 1000000000

/-- Cells of the target cell type: the mask `adata.obs["cell_type2"] == target_cell_type`. -/
def targetCells (inp : Input) (tct : String) : List Cell :=
  inp.cells.filter (fun c => c.cellType == tct)

/-- Membership of a cell's niche in `fibrotic_niches`
(`adata.obs["cell_niche"].isin(fibrotic_niches)`). -/
def isFib (cfg : Config) (c : Cell) : Bool :=
  cfg.fibroticNiches.contains c.niche

/-- Target-cell-type cells expressing gene `g` (`expr_tgt[g] > 0`). -/
def expressing (inp : Input) (tct g : String) : List Cell :=
  (targetCells inp tct).filter (fun c => decide (0 < c.expr g))

/-- Target-cell-type cells in one named niche:
`tgt & (adata.obs["cell_niche"] == niche)`. -/
def nicheSub (inp : Input) (tct n : String) : List Cell :=
  (targetCells inp tct).filter (fun c => c.niche == n)

/-- `pt.min()` of a cell subset (`0` on the empty list; empty subsets never
reach a use of this value, they are rejected first). -/
def ptMin : List Cell → ℚ
  | [] => 0
  | c :: r => r.foldl (fun a x => min a x.pt) c.pt

/-- `pt.max()` of a cell subset. -/
def ptMax : List Cell → ℚ
  | [] => 0
  | c :: r => r.foldl (fun a x => max a x.pt) c.pt

/-- Bin edge `j` of `np.linspace(pt.min(), pt.max(), num_bins + 1)`:
the edges are `lo + j * (hi - lo) / N` for `j = 0, ..., N`. -/
def edge (lo hi : ℚ) (N j : ℕ) : ℚ := lo + j * ((hi - lo) / N)

/-- Search loop for the bin index of `pd.cut` with right-closed intervals
and `include_lowest=True`: starting at bin `i` with `k` bins left to try,
return the first bin `i` with `v ≤ edge (i+1)`; when all `k` bins are
exhausted the index runs off the end (never reached for `v ≤ edge N`). -/
def binIdxGo (v : ℚ) (e : ℕ → ℚ) : ℕ → ℕ → ℕ
  | i, 0 => i
  | i, Nat.succ k => if v ≤ e (i + 1) then i else binIdxGo v e (i + 1) k

/-- Bin index assigned by
`pd.cut(pt, bins, labels=range(num_bins), include_lowest=True)` to value
`v`: the least `i` with `v ≤ edge (i+1)`, i.e. membership in the interval
`(edge i, edge (i+1)]`, with the lowest edge included in bin `0`. -/
def binIdx (lo hi : ℚ) (N : ℕ) (v : ℚ) : ℕ := binIdxGo v (edge lo hi N) 0 N

/-- The interval-membership reading of bin `i`: bin `0` is
`[edge 0, edge 1]` (lowest edge included), bin `i > 0` is
`(edge i, edge (i+1)]`. -/
def inBin (lo hi : ℚ) (N i : ℕ) (v : ℚ) : Prop :=
  (if i = 0 then lo ≤ v else edge lo hi N i < v) ∧ v ≤ edge lo hi N (i + 1)

/-- `get_grouped_data(adata_subset, num_bins)`: equal-width binning of the
subset's pseudotime over `[pt.min(), pt.max()]`, per-bin mean expression per
gene with empty bins zero-filled by
`groupby("pt_bin").mean().reindex(range(num_bins), fill_value=0)`, and the
bin midpoints `(bins[:-1] + bins[1:]) / 2`.  Returns `none` exactly when
`pd.cut` raises: empty subset (all-`NaN` edges), `num_bins = 0` (a single
edge), or `pt.min() == pt.max()` (edges not strictly increasing); the rows
of the per-bin table are represented as functions from gene name to mean. -/
def get_grouped_data (subset : List Cell) (numBins : ℕ) :
    Option (List (String → ℚ) × List ℚ) :=
  if subset.isEmpty || decide (numBins = 0) ||
      decide (ptMin subset = ptMax subset) then none
  else
    some ((List.range numBins).map (fun i => fun g =>
        let cs := subset.filter
          (fun c => binIdx (ptMin subset) (ptMax subset) numBins c.pt == i)
        if cs.isEmpty then 0 else mean (cs.map (fun c => c.expr g))),
      (List.range numBins).map (fun i =>
        (edge (ptMin subset) (ptMax subset) numBins i +
         edge (ptMin subset) (ptMax subset) numBins (i + 1)) / 2))

/-- The binned trajectory `grp[g].values` of one gene over a
(target cell type, niche) subset; `[]` when the binner raised (only read
after the binner succeeded). -/
def binnedTraj (inp : Input) (tct n : String) (numBins : ℕ) (g : String) :
    List ℚ :=
  match get_grouped_data (nicheSub inp tct n) numBins with
  | some (rows, _) => rows.map (fun r => r g)
  | none => []

/-- Width of one pseudotime bin, the constant spacing of the bin centers. -/
def binWidth (sub : List Cell) (numBins : ℕ) : ℚ :=
  (ptMax sub - ptMin sub) / numBins

/-- Reflect-mode index folding of `scipy.ndimage`: indices are reflected
about the array ends with edge duplication (`(d c b a | a b c d | d c b a)`),
which is periodic with period `2n`. -/
def reflectIdx (n : ℕ) (i : ℤ) : ℕ :=
  let m := (i.emod (2 * n)).toNat
  if m < n then m else 2 * n - 1 - m

/-- `gaussian_filter1d(v, sigma=2)`: correlation of `v` with the kernel
weights `w` over the window `[-8, 8]` (scipy's truncated radius
`int(truncate * sigma + 0.5) = 8` for `sigma = 2, truncate = 4`), with
reflect boundary handling.  `w` abstracts the normalized Gaussian weights,
which are transcendental; all results hold for every `w`. -/
def gaussSmooth (w : ℤ → ℚ) (v : List ℚ) : List ℚ :=
  (List.range v.length).map (fun (i : ℕ) =>
    ((List.range 17).map (fun (k : ℕ) =>
      w ((k : ℤ) - 8) * v.getD (reflectIdx v.length ((i : ℤ) + ((k : ℤ) - 8))) 0)).sum)

/-- `np.gradient(f, centers)` for the uniformly spaced bin centers with
spacing `h`: one-sided differences at both ends, central differences
inside (numpy reduces a constant-spacing coordinate array to the scalar
spacing case).  Only applied to arrays of length at least 2; numpy raises
below that, which the caller models. -/
def npGrad (f : List ℚ) (h : ℚ) : List ℚ :=
  (List.range f.length).map (fun i =>
    if i = 0 then (f.getD 1 0 - f.getD 0 0) / h
    else if i = f.length - 1 then
      (f.getD (f.length - 1) 0 - f.getD (f.length - 2) 0) / h
    else (f.getD (i + 1) 0 - f.getD (i - 1) 0) / (2 * h))

/-- The mean of the first `early_phase_bins` samples of
`np.gradient(gaussian_filter1d(grp[g].values, sigma=2), ctr)`. -/
def earlyDerivMean (w : ℤ → ℚ) (cfg : Config) (inp : Input) (tct g n : String) : ℚ :=
  mean ((npGrad (gaussSmooth w (binnedTraj inp tct n cfg.numBins g))
      (binWidth (nicheSub inp tct n) cfg.numBins)).take cfg.earlyPhaseBins)

/-- Stage 1 of `filter_genes_by_conditions`:
`(expr_tgt.std(axis=0) > min_std) & ((expr_tgt > 0).mean(axis=0) > min_fraction_target)`,
keeping the gene-universe order.  pandas `std` uses `ddof=1` (sample
standard deviation, `NaN` for fewer than 2 cells, so the comparison fails),
and `std > min_std` is embedded as the equivalent `min_std² < variance`
(with the always-true case for a negative threshold made explicit, since
a standard deviation is never negative). -/
def stage1 (cfg : Config) (inp : Input) (tct : String) : List String :=
  inp.genes.filter (fun g =>
    let xs := (targetCells inp tct).map (fun c => c.expr g)
    (decide (2 ≤ xs.length) &&
      (decide (cfg.minStd < 0) ||
       decide (cfg.minStd ^ 2 <
         (xs.map (fun x => (x - mean xs) ^ 2)).sum / ((xs.length : ℚ) - 1)))) &&
    (decide (0 < xs.length) &&
      decide (cfg.minFractionTarget <
        ((xs.filter (fun x => decide (0 < x))).length : ℚ) / (xs.length : ℚ))))

/-- Stage 2: among expressing target cells, the fraction whose niche is
fibrotic-associated must reach `fib_fraction_threshold`
(`frac >= fib_fraction_threshold`).  With no expressing cell the pandas
mean is `NaN` and the comparison fails, embedded by the emptiness guard. -/
def stage2 (cfg : Config) (inp : Input) (tct : String) (gs : List String) :
    List String :=
  gs.filter (fun g =>
    let ecs := expressing inp tct g
    !ecs.isEmpty &&
      decide (cfg.fibFractionThreshold ≤
        ((ecs.filter (isFib cfg)).length : ℚ) / (ecs.length : ℚ)))

/-- The per-niche loop of stage 3 for one gene: for each fibrotic niche in
order, an empty (target cell type, niche) subset rejects the gene at once
(`ok = False; break`); otherwise the subset is binned (`none` = the binner
raised, aborting the whole call), `np.gradient` raises below 2 bins, and a
non-positive early-phase derivative mean rejects the gene (with the
`early_phase_bins = 0` corner kept pandas-faithful: the mean of an empty
slice is `NaN`, whose comparison with 0 is `False`, so it never rejects). -/
def stage3Loop (w : ℤ → ℚ) (cfg : Config) (inp : Input) (tct g : String) :
    List String → Option Bool
  | [] => some true
  | n :: rest =>
    let sub := nicheSub inp tct n
    if sub.isEmpty then some false
    else
      match get_grouped_data sub cfg.numBins with
      | none => none
      | some _ =>
        if cfg.numBins < 2 then none
        else if cfg.earlyPhaseBins ≠ 0 ∧ earlyDerivMean w cfg inp tct g n ≤ 0 then
          some false
        else stage3Loop w cfg inp tct g rest

/-- Stage 3 over the surviving gene list: genes whose per-niche loop ends
with `ok = True`, in order; `none` when any loop aborted (the exception
propagates out of `filter_genes_by_conditions`). -/
def stage3Filter (w : ℤ → ℚ) (cfg : Config) (inp : Input) (tct : String) :
    List String → Option (List String)
  | [] => some []
  | g :: rest =>
    match stage3Loop w cfg inp tct g cfg.fibroticNiches with
    | none => none
    | some true => (stage3Filter w cfg inp tct rest).map (fun l => g :: l)
    | some false => stage3Filter w cfg inp tct rest

/-- The stage-4 fibrotic population of the code:
`fibm = tgt & adata.obs["cell_niche"].isin(fibrotic_niches)` — note the
restriction to the target cell type. -/
def fibCells (cfg : Config) (inp : Input) (tct : String) : List Cell :=
  (targetCells inp tct).filter (isFib cfg)

/-- The stage-4 remote population of the code:
`remm = tgt & (adata.obs["cell_niche"] == remote_niche)` — likewise
restricted to the target cell type. -/
def remoteCells (cfg : Config) (inp : Input) (tct : String) : List Cell :=
  (targetCells inp tct).filter (fun c => c.niche == cfg.remoteNiche)

/-- Stage 4: skip the gene when `rem_vals.eq(0).all()` (vacuously true for
an empty remote population), otherwise keep it iff
`fibm-mean / (rem-mean + 1e-9) > fold_change_threshold`.  An empty fibrotic
population gives a `NaN` mean in pandas and the comparison fails, embedded
by the emptiness guard. -/
def stage4 (cfg : Config) (inp : Input) (tct : String) (gs : List String) :
    List String :=
  gs.filter (fun g =>
    let remVals := (remoteCells cfg inp tct).map (fun c => c.expr g)
    let fibVals := (fibCells cfg inp tct).map (fun c => c.expr g)
    !(remVals.all (fun v => decide (v = 0))) &&
      (!fibVals.isEmpty &&
        decide (cfg.foldChangeThreshold < mean fibVals / (mean remVals + eps))))

/-- `filter_genes_by_conditions(adata, target_cell_type)`: the four-stage
cascade; `none` models the call raising out of stage 3's binning. -/
def filter_genes_by_conditions (w : ℤ → ℚ) (cfg : Config) (inp : Input)
    (tct : String) : Option (List String) :=
  (stage3Filter w cfg inp tct (stage2 cfg inp tct (stage1 cfg inp tct))).map
    (stage4 cfg inp tct)

/-- Stage 4 as the spec's §4.3.4 words it, for comparison with the code:
fibrotic and remote means over ALL cells of any cell type in the respective
niches, rejection when the remote mean is exactly zero, then the same
epsilon ratio and strict threshold. -/
def stage4AllCells (cfg : Config) (inp : Input) (gs : List String) :
    List String :=
  gs.filter (fun g =>
    let remVals := (inp.cells.filter (fun c => c.niche == cfg.remoteNiche)).map
      (fun c => c.expr g)
    let fibVals := (inp.cells.filter (isFib cfg)).map (fun c => c.expr g)
    !(decide (mean remVals = 0)) &&
      decide (cfg.foldChangeThreshold < mean fibVals / (mean remVals + eps)))

/-- Distance from `p` to its nearest neighbour among `qs` under the metric
`dist` (`KDTree(coords_f).query(p, k=1)[0]`; `dist` abstracts the Euclidean
metric, whose values are irrational). -/
def nnDist (dist : ℚ × ℚ → ℚ × ℚ → ℚ) (p : ℚ × ℚ) : List (ℚ × ℚ) → ℚ
  | [] => 0
  | q :: r => r.foldl (fun a x => min a (dist p x)) (dist p q)

/-- `calc_avg_distance` for one gene: among target cells expressing it, the
mean nearest-neighbour distance to the fibrotic-niche cells, and `np.nan`
(embedded as `none`) when no target cell expresses the gene. -/
def calc_avg_distance (dist : ℚ × ℚ → ℚ × ℚ → ℚ) (cfg : Config) (inp : Input)
    (ct g : String) : Option ℚ :=
  let fibPos := (inp.cells.filter (isFib cfg)).map (fun c => c.pos)
  let ecs := expressing inp ct g
  if ecs.isEmpty then none
  else some (mean (ecs.map (fun c => nnDist dist c.pos fibPos)))

/-- `calc_fib_fraction` for one gene:
`((expr_t[g] > 0) & niche.isin(fibrotic_niches)).sum() / max((expr_t[g] > 0).sum(), 1)`. -/
def calc_fib_fraction (cfg : Config) (inp : Input) (ct g : String) : ℚ :=
  let ecs := expressing inp ct g
  (((ecs.filter (isFib cfg)).length : ℚ)) / ((max ecs.length 1 : ℕ) : ℚ)

/-- The argument of `np.log2` in the Figure-6A cell: the numerator is the
mean over ALL cells of the target cell type (any niche), the denominator
the mean over all cells of the remote niche, each shifted by `1e-9`. -/
def log2fcArg (cfg : Config) (inp : Input) (ct g : String) : ℚ :=
  (mean ((inp.cells.filter (fun c => c.cellType == ct)).map (fun c => c.expr g)) + eps) /
  (mean ((inp.cells.filter (fun c => c.niche == cfg.remoteNiche)).map (fun c => c.expr g)) + eps)

/-- The ratio whose log2 the spec's per-gene table and the notebook's own
axis label (`log2(AvgExpr Fibrotic / Remote)`) describe: mean expression of
the fibrotic-associated population over mean expression of the remote-niche
population. -/
def log2fcArgSpec (cfg : Config) (inp : Input) (g : String) : ℚ :=
  mean ((inp.cells.filter (isFib cfg)).map (fun c => c.expr g)) /
  mean ((inp.cells.filter (fun c => c.niche == cfg.remoteNiche)).map (fun c => c.expr g))

/-! ### Concrete instances used by the witnesses and counterexamples -/

/-- The delta kernel, a concrete smoothing-weight instance for witnesses
(every theorem is kernel-generic). -/
def w0 : ℤ → ℚ := fun j => if j = 0 then 1 else 0

/-- A concrete metric instance for the distance-scorer witnesses. -/
def distL1 : ℚ × ℚ → ℚ × ℚ → ℚ := fun p q => |p.1 - q.1| + |p.2 - q.2|

/-- Shorthand cell constructor. -/
def mkCell (t n : String) (pt x y : ℚ) (e : String → ℚ) : Cell :=
  ⟨t, n, pt, (x, y), e⟩

/-- Benign thresholds shared by several concrete configurations. -/
def cfgBase : Config :=
  ⟨["F"], "R", 2, 0, 0, 0, 2, 2⟩

/-- C1 input: a target-type and an other-type cell in the fibrotic niche
(expression 1 and 100), and one of each in the remote niche (expression 1). -/
def inpC1 : Input :=
  ⟨[mkCell "T" "F" 0 0 0 (fun _ => 1), mkCell "O" "F" 0 0 0 (fun _ => 100),
    mkCell "T" "R" 0 0 0 (fun _ => 1), mkCell "O" "R" 0 0 0 (fun _ => 1)],
   ["g"]⟩

/-- C2/C3 cells: two target cells in the fibrotic niche at pseudotime 0
and 1 with expression 0 and 4. -/
def cellLo : Cell := mkCell "T" "F" 0 0 0 (fun _ => 0)

/-- See `cellLo`. -/
def cellHi : Cell := mkCell "T" "F" 1 0 0 (fun _ => 4)

/-- C2 configuration: one fibrotic niche, 2 bins, 1 early-phase bin. -/
def cfgC2 : Config := ⟨["F"], "R", 2, 0, 0, 0, 1, 1⟩

/-- C2 input: the two fibrotic target cells. -/
def inpC2 : Input := ⟨[cellLo, cellHi], ["g"]⟩

/-- C3 counterexample cell: a single-cell subset has equal min and max
pseudotime. -/
def cellSolo : Cell := mkCell "T" "F" (7/2) 0 0 (fun _ => 1)

/-- C5 input: a target cell in the fibrotic niche expressing 7 and a target
cell in the remote niche expressing 0. -/
def inpC5 : Input :=
  ⟨[mkCell "T" "F" 0 0 0 (fun _ => 7), mkCell "T" "R" 0 0 0 (fun _ => 0)],
   ["g"]⟩

/-- C6 configuration: `early_phase_bins = 3` exceeds `num_bins = 2`, which
the claim calls an impossible configuration that must be rejected up
front. -/
def cfgC6 : Config := ⟨["F"], "R", 2, 0, 0, 0, 3, 1⟩

/-- C6 input: two fibrotic target cells forming a rising trajectory and a
remote target cell with nonzero expression, so the cascade keeps the gene. -/
def inpC6 : Input :=
  ⟨[cellLo, cellHi, mkCell "T" "R" 0 0 0 (fun _ => 1)], ["g"]⟩

/-- C7 input: one target cell not expressing the gene (value 0) and one
fibrotic-niche cell, so the distance scorer has no expressing cell. -/
def inpC7 : Input :=
  ⟨[mkCell "T" "F" 0 0 0 (fun _ => 0), mkCell "O" "F" 0 3 4 (fun _ => 1)],
   ["g"]⟩

/-- C8 input: a target cell in the fibrotic niche expressing 8, a target
cell in the remote niche expressing 0, an other-type remote cell
expressing 2; the target-type mean (4) differs from the fibrotic mean (8). -/
def inpC8 : Input :=
  ⟨[mkCell "T" "F" 0 0 0 (fun _ => 8), mkCell "T" "R" 0 0 0 (fun _ => 0),
    mkCell "O" "R" 0 0 0 (fun _ => 2)],
   ["g"]⟩

/-- C10 input: exactly one target cell in the fibrotic niche (a degenerate
one-cell stage-3 subset) plus a remote target cell keeping stage 1 alive. -/
def inpC10 : Input :=
  ⟨[mkCell "T" "F" 0 0 0 (fun _ => 5), mkCell "T" "R" 9 0 0 (fun _ => 0)],
   ["g"]⟩


/-! ### Helper lemmas -/

theorem sum_eq_zero_of_forall_zero {l : List ℚ} (h : ∀ x ∈ l, x = 0) :
    l.sum = 0 := by
  induction l with
  | nil => simp
  | cons a r ih =>
    have ha := h a (List.mem_cons_self a r)
    have hr := ih fun x hx => h x (List.mem_cons_of_mem a hx)
    simp [ha, hr]

theorem forall_zero_of_sum_eq_zero {l : List ℚ} (hpos : ∀ x ∈ l, 0 ≤ x)
    (h : l.sum = 0) : ∀ x ∈ l, x = 0 := by
  induction l with
  | nil => simp
  | cons a r ih =>
    have ha : 0 ≤ a := hpos a (List.mem_cons_self a r)
    have hr : 0 ≤ r.sum :=
      List.sum_nonneg fun x hx => hpos x (List.mem_cons_of_mem a hx)
    have hsum : a + r.sum = 0 := by simpa using h
    intro x hx
    rcases List.mem_cons.mp hx with rfl | hx
    · linarith
    · exact ih (fun y hy => hpos y (List.mem_cons_of_mem a hy)) (by linarith) x hx

theorem mean_eq_zero_iff_of_nonneg {l : List ℚ} (hpos : ∀ x ∈ l, 0 ≤ x) :
    mean l = 0 ↔ ∀ x ∈ l, x = 0 := by
  unfold mean
  cases l with
  | nil => simp
  | cons a r =>
    have hlen : (((a :: r).length : ℕ) : ℚ) ≠ 0 := by
      simp
      exact ne_of_gt (by positivity)
    constructor
    · intro h
      rcases div_eq_zero_iff.mp h with hs | hs
      · exact forall_zero_of_sum_eq_zero hpos hs
      · exact absurd hs hlen
    · intro h
      rw [sum_eq_zero_of_forall_zero h]
      simp

theorem foldl_min_le_init (l : List Cell) (a : ℚ) :
    l.foldl (fun b x => min b x.pt) a ≤ a := by
  induction l generalizing a with
  | nil => simp
  | cons c r ih => exact le_trans (ih (min a c.pt)) (min_le_left _ _)

theorem foldl_min_le_mem (l : List Cell) (a : ℚ) (c : Cell) (hc : c ∈ l) :
    l.foldl (fun b x => min b x.pt) a ≤ c.pt := by
  induction l generalizing a with
  | nil => cases hc
  | cons d r ih =>
    rcases List.mem_cons.mp hc with rfl | hc
    · exact le_trans (foldl_min_le_init r _) (min_le_right _ _)
    · exact ih _ hc

theorem init_le_foldl_max (l : List Cell) (a : ℚ) :
    a ≤ l.foldl (fun b x => max b x.pt) a := by
  induction l generalizing a with
  | nil => simp
  | cons c r ih => exact le_trans (le_max_left _ _) (ih (max a c.pt))

theorem mem_le_foldl_max (l : List Cell) (a : ℚ) (c : Cell) (hc : c ∈ l) :
    c.pt ≤ l.foldl (fun b x => max b x.pt) a := by
  induction l generalizing a with
  | nil => cases hc
  | cons d r ih =>
    rcases List.mem_cons.mp hc with rfl | hc
    · exact le_trans (le_max_right _ _) (init_le_foldl_max r _)
    · exact ih _ hc

theorem ptMin_le {l : List Cell} {c : Cell} (hc : c ∈ l) : ptMin l ≤ c.pt := by
  cases l with
  | nil => cases hc
  | cons d r =>
    rcases List.mem_cons.mp hc with rfl | hc
    · exact foldl_min_le_init r _
    · exact foldl_min_le_mem r (Cell.pt d) c hc

theorem le_ptMax {l : List Cell} {c : Cell} (hc : c ∈ l) : c.pt ≤ ptMax l := by
  cases l with
  | nil => cases hc
  | cons d r =>
    rcases List.mem_cons.mp hc with rfl | hc
    · exact init_le_foldl_max r _
    · exact mem_le_foldl_max r (Cell.pt d) c hc

theorem edge_zero (lo hi : ℚ) (N : ℕ) : edge lo hi N 0 = lo := by
  simp [edge]

theorem edge_last (lo hi : ℚ) (N : ℕ) (hN : N ≠ 0) : edge lo hi N N = hi := by
  have hq : (N : ℚ) ≠ 0 := Nat.cast_ne_zero.mpr hN
  unfold edge
  field_simp

theorem edge_lt_edge (lo hi : ℚ) (N : ℕ) (hlt : lo < hi) (hN : 0 < N)
    {j k : ℕ} (hjk : j < k) : edge lo hi N j < edge lo hi N k := by
  unfold edge
  have hd : 0 < (hi - lo) / (N : ℚ) :=
    div_pos (by linarith) (by exact_mod_cast hN)
  have hc : (j : ℚ) < (k : ℚ) := by exact_mod_cast hjk
  nlinarith

theorem edge_le_edge (lo hi : ℚ) (N : ℕ) (hlt : lo < hi) (hN : 0 < N)
    {j k : ℕ} (hjk : j ≤ k) : edge lo hi N j ≤ edge lo hi N k := by
  rcases Nat.lt_or_ge j k with h | h
  · exact le_of_lt (edge_lt_edge lo hi N hlt hN h)
  · have : j = k := le_antisymm hjk h
    simp [this]

theorem binIdxGo_spec (v : ℚ) (e : ℕ → ℚ) :
    ∀ k i, 0 < k → v ≤ e (i + k) →
      i ≤ binIdxGo v e i k ∧ binIdxGo v e i k < i + k ∧
      v ≤ e (binIdxGo v e i k + 1) ∧
      ∀ j, i ≤ j → j < binIdxGo v e i k → e (j + 1) < v := by
  intro k
  induction k with
  | zero => intro i h; omega
  | succ k ih =>
    intro i _ hv
    by_cases hle : v ≤ e (i + 1)
    · rw [binIdxGo, if_pos hle]
      exact ⟨le_refl i, by omega, hle, fun j hj hj2 => absurd (lt_of_le_of_lt hj hj2) (lt_irrefl i)⟩
    · rw [binIdxGo, if_neg hle]
      rcases Nat.eq_zero_or_pos k with rfl | hk
      · exact absurd (by simpa using hv) hle
      · have hv2 : v ≤ e (i + 1 + k) := by
          have : i + 1 + k = i + (k + 1) := by omega
          rw [this]; exact hv
        obtain ⟨h1, h2, h3, h4⟩ := ih (i + 1) hk hv2
        refine ⟨by omega, by omega, h3, fun j hj hj2 => ?_⟩
        rcases Nat.eq_or_lt_of_le hj with rfl | hj
        · exact lt_of_not_le hle
        · exact h4 j hj hj2

theorem binIdx_spec (lo hi : ℚ) (N : ℕ) (v : ℚ) (hN : 0 < N)
    (hv : v ≤ edge lo hi N N) :
    binIdx lo hi N v < N ∧ v ≤ edge lo hi N (binIdx lo hi N v + 1) ∧
    ∀ j, j < binIdx lo hi N v → edge lo hi N (j + 1) < v := by
  obtain ⟨h1, h2, h3, h4⟩ :=
    binIdxGo_spec v (edge lo hi N) N 0 hN (by simpa using hv)
  exact ⟨by simpa using h2, h3, fun j hj => h4 j (Nat.zero_le j) hj⟩

theorem inBin_binIdx (lo hi : ℚ) (N : ℕ) (v : ℚ) (_hlt : lo < hi) (hN : 0 < N)
    (hlo : lo ≤ v) (hhi : v ≤ hi) :
    inBin lo hi N (binIdx lo hi N v) v := by
  obtain ⟨hb, hub, hmin⟩ := binIdx_spec lo hi N v hN
    (by rw [edge_last lo hi N (Nat.pos_iff_ne_zero.mp hN)]; exact hhi)
  constructor
  · by_cases h0 : binIdx lo hi N v = 0
    · simp [h0, hlo]
    · rw [if_neg h0]
      have := hmin (binIdx lo hi N v - 1) (by omega)
      rwa [show binIdx lo hi N v - 1 + 1 = binIdx lo hi N v by omega] at this
  · exact hub

theorem inBin_eq_binIdx (lo hi : ℚ) (N i : ℕ) (v : ℚ) (hlt : lo < hi)
    (hN : 0 < N) (hhi : v ≤ hi) (_hiN : i < N) (h : inBin lo hi N i v) :
    i = binIdx lo hi N v := by
  obtain ⟨hb, hub, hmin⟩ := binIdx_spec lo hi N v hN
    (by rw [edge_last lo hi N (Nat.pos_iff_ne_zero.mp hN)]; exact hhi)
  rcases lt_trichotomy i (binIdx lo hi N v) with hlt2 | heq | hgt
  · exact absurd h.2 (not_le_of_lt (hmin i hlt2))
  · exact heq
  · exfalso
    have hi0 : i ≠ 0 := by omega
    have hedge : edge lo hi N i < v := by
      have := h.1
      rwa [if_neg hi0] at this
    have : edge lo hi N (binIdx lo hi N v + 1) ≤ edge lo hi N i :=
      edge_le_edge lo hi N hlt hN (by omega)
    linarith

theorem get_grouped_data_eq_some (subset : List Cell) (N : ℕ)
    (hne : subset.isEmpty = false) (hN : 0 < N)
    (hlt : ptMin subset < ptMax subset) :
    get_grouped_data subset N =
      some ((List.range N).map (fun i => fun g =>
          let cs := subset.filter
            (fun c => binIdx (ptMin subset) (ptMax subset) N c.pt == i)
          if cs.isEmpty then 0 else mean (cs.map (fun c => c.expr g))),
        (List.range N).map (fun i =>
          (edge (ptMin subset) (ptMax subset) N i +
           edge (ptMin subset) (ptMax subset) N (i + 1)) / 2)) := by
  unfold get_grouped_data
  rw [if_neg]
  simp [hne, Nat.pos_iff_ne_zero.mp hN, ne_of_lt hlt]

theorem get_grouped_data_eq_none (subset : List Cell) (N : ℕ)
    (heq : ptMin subset = ptMax subset) :
    get_grouped_data subset N = none := by
  unfold get_grouped_data
  rw [if_pos]
  simp [heq]

theorem get_grouped_data_some_shape (subset : List Cell) (N : ℕ)
    (rows : List (String → ℚ)) (ctrs : List ℚ)
    (h : get_grouped_data subset N = some (rows, ctrs)) :
    rows.length = N ∧ ctrs.length = N := by
  unfold get_grouped_data at h
  split at h
  · cases h
  · rw [Option.some_inj] at h
    have h1 := congrArg Prod.fst h
    have h2 := congrArg Prod.snd h
    simp at h1 h2
    rw [← h1, ← h2]
    simp

theorem gaussSmooth_length (w : ℤ → ℚ) (v : List ℚ) :
    (gaussSmooth w v).length = v.length := by
  unfold gaussSmooth
  rw [List.length_map, List.length_range]

theorem npGrad_length (f : List ℚ) (h : ℚ) : (npGrad f h).length = f.length := by
  unfold npGrad
  rw [List.length_map, List.length_range]

theorem binnedTraj_length (inp : Input) (tct n : String) (N : ℕ) (g : String)
    (rows : List (String → ℚ)) (ctrs : List ℚ)
    (h : get_grouped_data (nicheSub inp tct n) N = some (rows, ctrs)) :
    (binnedTraj inp tct n N g).length = N := by
  unfold binnedTraj
  rw [h]
  simpa using (get_grouped_data_some_shape _ _ _ _ h).1

theorem stage3Filter_sublist (w : ℤ → ℚ) (cfg : Config) (inp : Input)
    (tct : String) (gs out : List String)
    (h : stage3Filter w cfg inp tct gs = some out) : out.Sublist gs := by
  induction gs generalizing out with
  | nil =>
    rw [stage3Filter, Option.some_inj] at h
    rw [← h]
  | cons g rest ih =>
    rw [stage3Filter] at h
    cases hloop : stage3Loop w cfg inp tct g cfg.fibroticNiches with
    | none => rw [hloop] at h; cases h
    | some b =>
      rw [hloop] at h
      cases b
      · exact (ih out h).cons g
      · rcases Option.map_eq_some'.mp h with ⟨l, hl, rfl⟩
        exact (ih l hl).cons₂ g


theorem stage4_mem_iff (cfg : Config) (inp : Input) (tct : String)
    (gs : List String) (g : String) :
    g ∈ stage4 cfg inp tct gs ↔
      g ∈ gs ∧
      (∃ v ∈ (remoteCells cfg inp tct).map (fun c => c.expr g), v ≠ 0) ∧
      fibCells cfg inp tct ≠ [] ∧
      cfg.foldChangeThreshold <
        mean ((fibCells cfg inp tct).map (fun c => c.expr g)) /
        (mean ((remoteCells cfg inp tct).map (fun c => c.expr g)) + eps) := by
  unfold stage4
  rw [List.mem_filter]
  simp [List.isEmpty_iff, List.map_eq_nil_iff]

/-! ### Claim theorems -/

/-- C1, counterexample.  The claim says the stage-4 fold-change populations
are all cells (of any cell type) in the fibrotic and remote niches, i.e.
that stage 4 behaves like the spec-worded `stage4AllCells`.  On `inpC1`
(fibrotic niche: target cell at 1, other-type cell at 100; remote niche:
one cell of each type at 1) the code's stage 4 — whose populations are
restricted to the target cell type — rejects the gene (ratio about 1),
while the all-cell-types reading keeps it (ratio about 50.5): the claim is
false of the code. -/
theorem c1_stage4_population_counterexample :
    stage4 cfgBase inpC1 "T" ["g"] = [] ∧
    stage4AllCells cfgBase inpC1 ["g"] = ["g"] := by
  constructor
  · have hrm : remoteCells cfgBase inpC1 "T" = [mkCell "T" "R" 0 0 0 (fun _ => 1)] := by
      simp [remoteCells, targetCells, inpC1, cfgBase, mkCell]
    have hfb : fibCells cfgBase inpC1 "T" = [mkCell "T" "F" 0 0 0 (fun _ => 1)] := by
      simp [fibCells, targetCells, isFib, inpC1, cfgBase, mkCell]
    simp only [stage4, hrm, hfb, List.filter_cons, List.filter_nil, List.map_cons,
      List.map_nil, List.all_cons, List.all_nil, List.isEmpty, mkCell]
    norm_num [mean, eps, cfgBase]
  · have hrm : inpC1.cells.filter (fun c => c.niche == cfgBase.remoteNiche)
        = [mkCell "T" "R" 0 0 0 (fun _ => 1), mkCell "O" "R" 0 0 0 (fun _ => 1)] := by
      simp [inpC1, cfgBase, mkCell]
    have hfb : inpC1.cells.filter (isFib cfgBase)
        = [mkCell "T" "F" 0 0 0 (fun _ => 1), mkCell "O" "F" 0 0 0 (fun _ => 100)] := by
      simp [inpC1, cfgBase, isFib, mkCell]
    simp only [stage4AllCells, hrm, hfb, List.filter_cons, List.filter_nil, List.map_cons,
      List.map_nil, mkCell]
    norm_num [mean, eps, cfgBase]

/-- C1, amended.  At stage 4 the fibrotic population is the target-cell-type
cells in fibrotic-associated niches and the remote population the
target-cell-type cells in the remote niche (the `tgt &` conjunct of `fibm`
and `remm`): a gene is kept iff it survived stage 3, its target-restricted
remote values are not all zero, the target-restricted fibrotic population is
non-empty, and the target-restricted mean ratio strictly exceeds the
fold-change threshold — stage 4 is restricted to the target cell type
exactly like stages 1–3. -/
theorem c1_stage4_target_restricted (cfg : Config) (inp : Input) (tct : String)
    (gs : List String) (g : String) :
    g ∈ stage4 cfg inp tct gs ↔
      g ∈ gs ∧
      (∃ v ∈ ((inp.cells.filter (fun c => c.cellType == tct)).filter
          (fun c => c.niche == cfg.remoteNiche)).map (fun c => c.expr g), v ≠ 0) ∧
      (inp.cells.filter (fun c => c.cellType == tct)).filter (isFib cfg) ≠ [] ∧
      cfg.foldChangeThreshold <
        mean (((inp.cells.filter (fun c => c.cellType == tct)).filter
          (isFib cfg)).map (fun c => c.expr g)) /
        (mean (((inp.cells.filter (fun c => c.cellType == tct)).filter
          (fun c => c.niche == cfg.remoteNiche)).map (fun c => c.expr g)) + eps) := by
  have h := stage4_mem_iff cfg inp tct gs g
  unfold remoteCells fibCells targetCells at h
  exact h

/-- C5. Under the spec's data-model invariant that expression values are
non-negative (restricted here to the remote population of gene `g`), and
with a non-empty fibrotic population: a gene whose remote-niche mean is
exactly zero is rejected at stage 4 regardless of its fibrotic mean (the
`rem_vals.eq(0).all()` guard), and any other gene is kept iff
`fibrotic_mean / (remote_mean + 1e-9)` strictly exceeds the fold-change
threshold. -/
theorem c5_stage4_remote_zero_guard (cfg : Config) (inp : Input) (tct : String)
    (gs : List String) (g : String)
    (hpos : ∀ v ∈ (remoteCells cfg inp tct).map (fun c => c.expr g), 0 ≤ v)
    (hfib : fibCells cfg inp tct ≠ []) :
    (mean ((remoteCells cfg inp tct).map (fun c => c.expr g)) = 0 →
      g ∉ stage4 cfg inp tct gs) ∧
    (mean ((remoteCells cfg inp tct).map (fun c => c.expr g)) ≠ 0 →
      (g ∈ stage4 cfg inp tct gs ↔ g ∈ gs ∧
        cfg.foldChangeThreshold <
          mean ((fibCells cfg inp tct).map (fun c => c.expr g)) /
          (mean ((remoteCells cfg inp tct).map (fun c => c.expr g)) + eps))) := by
  constructor
  · intro hm hmem
    rw [stage4_mem_iff] at hmem
    rcases hmem.2.1 with ⟨v, hv, hv0⟩
    exact hv0 ((mean_eq_zero_iff_of_nonneg hpos).mp hm v hv)
  · intro hm
    rw [stage4_mem_iff]
    constructor
    · rintro ⟨h1, -, -, h4⟩
      exact ⟨h1, h4⟩
    · rintro ⟨h1, h4⟩
      refine ⟨h1, ?_, hfib, h4⟩
      by_contra hno
      push_neg at hno
      exact hm ((mean_eq_zero_iff_of_nonneg hpos).mpr hno)

/-- C5, witness: on `inpC5` the remote target cell has expression 0, so the
remote mean is zero and the gene is rejected even though the fibrotic mean
is 7. -/
theorem c5_stage4_remote_zero_guard_witness :
    "g" ∉ stage4 cfgBase inpC5 "T" ["g"] :=
  (c5_stage4_remote_zero_guard cfgBase inpC5 "T" ["g"] "g"
    (by simp [remoteCells, targetCells, inpC5, cfgBase, mkCell])
    (by simp [fibCells, targetCells, isFib, inpC5, cfgBase, mkCell])).1
    (by simp [mean, remoteCells, targetCells, inpC5, cfgBase, mkCell])

/-- C7. The distance scorer reports `np.nan` (embedded as `none`) for a
gene no target cell expresses — never zero — and otherwise reports the mean
over expressing target cells of the distance to the nearest
fibrotic-niche cell. -/
theorem c7_distance_undefined_not_zero (dist : ℚ × ℚ → ℚ × ℚ → ℚ)
    (cfg : Config) (inp : Input) (ct g : String) :
    ((expressing inp ct g).isEmpty = true →
      calc_avg_distance dist cfg inp ct g = none) ∧
    ((expressing inp ct g).isEmpty = false →
      calc_avg_distance dist cfg inp ct g =
        some (mean ((expressing inp ct g).map (fun c =>
          nnDist dist c.pos ((inp.cells.filter (isFib cfg)).map (fun c => c.pos)))))) := by
  unfold calc_avg_distance
  constructor
  · intro h
    rw [if_pos h]
  · intro h
    rw [if_neg (by simp [h])]

/-- C7, witness: on `inpC7` the single target cell has expression 0 for the
gene, so the scorer reports the undefined marker. -/
theorem c7_distance_witness :
    calc_avg_distance distL1 cfgBase inpC7 "T" "g" = none :=
  (c7_distance_undefined_not_zero distL1 cfgBase inpC7 "T" "g").1
    (by simp [expressing, targetCells, inpC7, mkCell])

/-- C8.  The notebook's per-gene `log2fc` is
`np.log2((expr_all.loc[cell_type2==ct].mean()+1e-9)/(expr_all.loc[niche==remote].mean()+1e-9))`:
its numerator population is ALL cells of the target cell type (any niche),
not the fibrotic-associated population that both the spec and the
notebook's own axis label (`log2(AvgExpr Fibrotic / Remote)`) describe.
On `inpC8` the code's log2 argument is `4000000001/1000000001` (about 4)
while the described fibrotic/remote ratio is 8; since log2 is strictly
monotone, the plotted value differs from the claimed one. -/
theorem c8_log2fc_population_bug :
    log2fcArg cfgBase inpC8 "T" "g" = 4000000001 / 1000000001 ∧
    log2fcArgSpec cfgBase inpC8 "g" = 8 ∧
    log2fcArg cfgBase inpC8 "T" "g" ≠ log2fcArgSpec cfgBase inpC8 "g" := by
  refine ⟨?_, ?_, ?_⟩ <;>
    simp [log2fcArg, log2fcArgSpec, inpC8, cfgBase, isFib, mkCell, mean, eps] <;> norm_num

/-- C9. The niche-fraction scorer returns exactly
(expressing target cells in fibrotic niches) / max(expressing target cells, 1),
and in particular the denominator floor makes the fraction 0 — not a
division-by-zero error — for a gene with no expressing target cell. -/
theorem c9_niche_fraction_formula (cfg : Config) (inp : Input) (ct g : String) :
    calc_fib_fraction cfg inp ct g =
      (((expressing inp ct g).filter (isFib cfg)).length : ℚ) /
        ((max (expressing inp ct g).length 1 : ℕ) : ℚ) ∧
    ((expressing inp ct g).length = 0 → calc_fib_fraction cfg inp ct g = 0) := by
  constructor
  · rfl
  · intro h
    have hnil : expressing inp ct g = [] := List.length_eq_zero.mp h
    unfold calc_fib_fraction
    simp [hnil]

/-- C9, witness: on `inpC7` no target cell expresses the gene and the
reported fraction is 0. -/
theorem c9_niche_fraction_witness :
    calc_fib_fraction cfgBase inpC7 "T" "g" = 0 :=
  (c9_niche_fraction_formula cfgBase inpC7 "T" "g").2
    (by simp [expressing, targetCells, inpC7, mkCell])

/-- C4. When the cascade returns (does not raise out of stage 3), its
output is a sublist of the stage-1 survivor list — same genes, same order,
never resorted, no stage re-admitting a rejected gene — and the stage-1
list is itself a sublist of the gene universe `inp.genes`. -/
theorem c4_cascade_monotone (w : ℤ → ℚ) (cfg : Config) (inp : Input)
    (tct : String) (out : List String)
    (h : filter_genes_by_conditions w cfg inp tct = some out) :
    out.Sublist (stage1 cfg inp tct) ∧ (stage1 cfg inp tct).Sublist inp.genes := by
  unfold filter_genes_by_conditions at h
  rcases Option.map_eq_some'.mp h with ⟨l3, hl3, rfl⟩
  have h4 : (stage4 cfg inp tct l3).Sublist l3 := List.filter_sublist _
  have h3 : l3.Sublist (stage2 cfg inp tct (stage1 cfg inp tct)) :=
    stage3Filter_sublist w cfg inp tct _ l3 hl3
  have h2 : (stage2 cfg inp tct (stage1 cfg inp tct)).Sublist (stage1 cfg inp tct) :=
    List.filter_sublist _
  exact ⟨(h4.trans h3).trans h2, List.filter_sublist _⟩

/-- C4, witness: on the empty cell table the cascade returns the empty
survivor list, a sublist of stage 1's output, itself a sublist of the gene
universe. -/
theorem c4_cascade_monotone_witness :
    (([] : List String).Sublist (stage1 cfgBase ⟨[], ["g"]⟩ "T") ∧
      (stage1 cfgBase ⟨[], ["g"]⟩ "T").Sublist ["g"]) :=
  c4_cascade_monotone w0 cfgBase ⟨[], ["g"]⟩ "T" []
    (by simp [filter_genes_by_conditions, stage3Filter, stage2, stage1, stage4,
      targetCells, expressing, remoteCells, fibCells, cfgBase])

/-- C10.  The binner is total only on subsets whose pseudotime values are
not all equal: a non-empty subset with `pt.min() = pt.max()` (for example
a single cell) makes `pd.cut` raise, embedded as `get_grouped_data = none`.
Since stage 3's guard only checks that the (target cell type, niche)
intersection is non-empty, once any gene survives stage 2 and the first
fibrotic niche's intersection is such a degenerate subset, the whole
cascade call aborts (`none`) instead of rejecting that gene. -/
theorem c10_degenerate_subset_aborts (w : ℤ → ℚ) (cfg : Config) (inp : Input)
    (tct n : String) (rest : List String)
    (hn : cfg.fibroticNiches = n :: rest)
    (hs : stage2 cfg inp tct (stage1 cfg inp tct) ≠ [])
    (hne : (nicheSub inp tct n).isEmpty = false)
    (heq : ptMin (nicheSub inp tct n) = ptMax (nicheSub inp tct n)) :
    get_grouped_data (nicheSub inp tct n) cfg.numBins = none ∧
    filter_genes_by_conditions w cfg inp tct = none := by
  have hnone : get_grouped_data (nicheSub inp tct n) cfg.numBins = none :=
    get_grouped_data_eq_none _ _ heq
  refine ⟨hnone, ?_⟩
  unfold filter_genes_by_conditions
  rcases hgs : stage2 cfg inp tct (stage1 cfg inp tct) with - | ⟨g, gs⟩
  · exact absurd hgs hs
  · have hloop : stage3Loop w cfg inp tct g cfg.fibroticNiches = none := by
      rw [hn, stage3Loop]
      rw [if_neg (by simp [hne])]
      rw [hnone]
    rw [stage3Filter, hloop]
    rfl

/-- C10, witness: `inpC10` has exactly one target cell in the first (only)
fibrotic niche, so its stage-3 subset is non-empty with equal min and max
pseudotime, and the whole cascade call aborts. -/
theorem c10_degenerate_subset_aborts_witness :
    filter_genes_by_conditions w0 cfgBase inpC10 "T" = none :=
  (c10_degenerate_subset_aborts w0 cfgBase inpC10 "T" "F" [] rfl
    (by simp [stage2, stage1, expressing, targetCells, isFib, inpC10, cfgBase, mkCell, mean]
          <;> norm_num)
    (by simp [nicheSub, targetCells, inpC10, mkCell])
    (by simp [nicheSub, targetCells, inpC10, mkCell, ptMin, ptMax])).2

theorem stage3Loop_true_iff (w : ℤ → ℚ) (cfg : Config) (inp : Input)
    (tct g : String) (hb : 2 ≤ cfg.numBins) (he : 0 < cfg.earlyPhaseBins) :
    ∀ l : List String,
      (∀ n ∈ l, (nicheSub inp tct n).isEmpty = false →
        ptMin (nicheSub inp tct n) < ptMax (nicheSub inp tct n)) →
      (stage3Loop w cfg inp tct g l = some true ↔
        ∀ n ∈ l, (nicheSub inp tct n).isEmpty = false ∧
          0 < earlyDerivMean w cfg inp tct g n) := by
  intro l
  induction l with
  | nil =>
    intro _
    simp [stage3Loop]
  | cons n rest ih =>
    intro hnd
    have hnd2 : ∀ m ∈ rest, (nicheSub inp tct m).isEmpty = false →
        ptMin (nicheSub inp tct m) < ptMax (nicheSub inp tct m) :=
      fun m hm => hnd m (List.mem_cons_of_mem n hm)
    by_cases hemp : (nicheSub inp tct n).isEmpty = true
    · rw [stage3Loop, if_pos hemp]
      constructor
      · intro h
        cases h
      · intro h
        have := (h n (List.mem_cons_self n rest)).1
        rw [hemp] at this
        cases this
    · have hemp2 : (nicheSub inp tct n).isEmpty = false := by
        simpa using hemp
      have hlt := hnd n (List.mem_cons_self n rest) hemp2
      have hsome := get_grouped_data_eq_some (nicheSub inp tct n) cfg.numBins
        hemp2 (by omega) hlt
      rw [stage3Loop, if_neg (by simp [hemp2]), hsome]
      rw [show (match some ((List.range cfg.numBins).map (fun i => fun g =>
          let cs := (nicheSub inp tct n).filter
            (fun c => binIdx (ptMin (nicheSub inp tct n)) (ptMax (nicheSub inp tct n))
              cfg.numBins c.pt == i)
          if cs.isEmpty then 0 else mean (cs.map (fun c => c.expr g))),
        (List.range cfg.numBins).map (fun i =>
          (edge (ptMin (nicheSub inp tct n)) (ptMax (nicheSub inp tct n)) cfg.numBins i +
           edge (ptMin (nicheSub inp tct n)) (ptMax (nicheSub inp tct n)) cfg.numBins (i + 1)) / 2)) with
        | none => (none : Option Bool)
        | some _ =>
          if cfg.numBins < 2 then none
          else if cfg.earlyPhaseBins ≠ 0 ∧ earlyDerivMean w cfg inp tct g n ≤ 0 then
            some false
          else stage3Loop w cfg inp tct g rest) =
        (if cfg.numBins < 2 then none
         else if cfg.earlyPhaseBins ≠ 0 ∧ earlyDerivMean w cfg inp tct g n ≤ 0 then
           some false
         else stage3Loop w cfg inp tct g rest) from rfl]
      rw [if_neg (by omega)]
      by_cases hem : earlyDerivMean w cfg inp tct g n ≤ 0
      · rw [if_pos ⟨by omega, hem⟩]
        constructor
        · intro h
          cases h
        · intro h
          exact absurd (h n (List.mem_cons_self n rest)).2 (not_lt_of_le hem)
      · rw [if_neg (fun hc => hem hc.2), ih hnd2]
        constructor
        · intro h m hm
          rcases List.mem_cons.mp hm with rfl | hm
          · exact ⟨hemp2, lt_of_not_le hem⟩
          · exact h m hm
        · intro h m hm
          exact h m (List.mem_cons_of_mem n hm)

/-- C2.  Stage 3's per-gene loop, for a configuration with at least 2 bins,
a positive early-phase window, and no degenerate (equal min/max pseudotime)
niche subset: the gene is kept iff for EVERY fibrotic-associated niche,
taken individually, the (target cell type, niche) intersection is non-empty
and the mean of the first `early_phase_bins` samples of the discrete
derivative (with respect to the bin centers) of the kernel-smoothed binned
trajectory is strictly positive — a conjunction over all niches.  Moreover
an empty intersection rejects the gene at once (`ok=False; break`),
whatever niches remain: the result is `some false` for every tail. -/
theorem c2_stage3_every_niche_early_rising (w : ℤ → ℚ) (cfg : Config)
    (inp : Input) (tct g : String)
    (hb : 2 ≤ cfg.numBins) (he : 0 < cfg.earlyPhaseBins)
    (hnd : ∀ n ∈ cfg.fibroticNiches, (nicheSub inp tct n).isEmpty = false →
      ptMin (nicheSub inp tct n) < ptMax (nicheSub inp tct n)) :
    (stage3Loop w cfg inp tct g cfg.fibroticNiches = some true ↔
      ∀ n ∈ cfg.fibroticNiches, (nicheSub inp tct n).isEmpty = false ∧
        0 < earlyDerivMean w cfg inp tct g n) ∧
    (∀ n rest, (nicheSub inp tct n).isEmpty = true →
      stage3Loop w cfg inp tct g (n :: rest) = some false) := by
  refine ⟨stage3Loop_true_iff w cfg inp tct g hb he _ hnd, ?_⟩
  intro n rest hemp
  rw [stage3Loop, if_pos hemp]

theorem earlyDerivMean_c2_value : earlyDerivMean w0 cfgC2 inpC2 "T" "g" "F" = 8 := by
  have hsub : nicheSub inpC2 "T" "F" = [cellLo, cellHi] := by
    simp [nicheSub, targetCells, inpC2, cellLo, cellHi, mkCell]
  have htraj : binnedTraj inpC2 "T" "F" 2 "g" = [0, 4] := by
    simp only [binnedTraj, hsub]
    norm_num [get_grouped_data, cellLo, cellHi, mkCell, ptMin, ptMax, binIdx, binIdxGo,
      edge, mean, List.range_succ]
  have hsm : gaussSmooth w0 [0, 4] = [0, 4] := by
    norm_num [gaussSmooth, w0, reflectIdx, List.range_succ]
  have hbw : binWidth (nicheSub inpC2 "T" "F") 2 = 1 / 2 := by
    rw [hsub]
    norm_num [binWidth, cellLo, cellHi, mkCell, ptMin, ptMax]
  have hgr : npGrad [0, 4] (1 / 2) = [8, 8] := by
    norm_num [npGrad, List.range_succ]
  unfold earlyDerivMean
  have h2 : cfgC2.numBins = 2 := rfl
  have h1 : cfgC2.earlyPhaseBins = 1 := rfl
  rw [h2, h1, htraj, hbw, hsm, hgr]
  norm_num [mean]

/-- C2, witness: on `inpC2` (two fibrotic target cells, trajectory rising
from 0 to 4) the gene passes the stage-3 loop, via the characterization
with all hypotheses discharged concretely. -/
theorem c2_stage3_witness :
    stage3Loop w0 cfgC2 inpC2 "T" "g" cfgC2.fibroticNiches = some true :=
  ((c2_stage3_every_niche_early_rising w0 cfgC2 inpC2 "T" "g"
      (by norm_num [cfgC2]) (by norm_num [cfgC2])
      (by
        intro n hn hne
        have hn2 : n = "F" := by simpa [cfgC2] using hn
        subst hn2
        have hsub : nicheSub inpC2 "T" "F" = [cellLo, cellHi] := by
          simp [nicheSub, targetCells, inpC2, cellLo, cellHi, mkCell]
        rw [hsub]
        norm_num [ptMin, ptMax, cellLo, cellHi, mkCell])).1).mpr
    (by
      intro n hn
      have hn2 : n = "F" := by simpa [cfgC2] using hn
      subst hn2
      refine ⟨by simp [nicheSub, targetCells, inpC2, cellLo, cellHi, mkCell], ?_⟩
      rw [earlyDerivMean_c2_value]
      norm_num)

/-- C3, counterexample.  The claim quantifies over every non-empty cell
subset, but on the non-empty single-cell subset `[cellSolo]` (whose min
and max pseudotime coincide) the binner raises (`none`) instead of
returning the claimed 50 rows, centers and assignments. -/
theorem c3_binner_degenerate_counterexample :
    [cellSolo] ≠ ([] : List Cell) ∧ get_grouped_data [cellSolo] 50 = none :=
  ⟨by simp, get_grouped_data_eq_none _ _ rfl⟩

/-- C3, amended.  For every non-empty subset with strictly increasing
pseudotime range (`pt.min() < pt.max()`) and positive bin count `N`, the
binner succeeds and: returns exactly `N` rows and `N` centers; each center
is the midpoint of its bin's edges; every cell lands in exactly one bin —
its index satisfies the interval reading (lowest edge inclusive, later
edges closed on the right) and is the unique index below `N` doing so;
each row entry is the per-bin mean expression, an all-zero row for a bin
with no cells; and the subset's min and max pseudotime lie within the
first and last bin's edges inclusive. -/
theorem c3_binner_spec (subset : List Cell) (N : ℕ)
    (hne : subset.isEmpty = false) (hN : 0 < N)
    (hlt : ptMin subset < ptMax subset) :
    ∃ rows ctrs,
      get_grouped_data subset N = some (rows, ctrs) ∧
      rows.length = N ∧ ctrs.length = N ∧
      (∀ i, i < N → ctrs.getD i 0 =
        (edge (ptMin subset) (ptMax subset) N i +
         edge (ptMin subset) (ptMax subset) N (i + 1)) / 2) ∧
      (∀ c ∈ subset, binIdx (ptMin subset) (ptMax subset) N c.pt < N ∧
        inBin (ptMin subset) (ptMax subset) N
          (binIdx (ptMin subset) (ptMax subset) N c.pt) c.pt ∧
        ∀ i, i < N → inBin (ptMin subset) (ptMax subset) N i c.pt →
          i = binIdx (ptMin subset) (ptMax subset) N c.pt) ∧
      (∀ i, i < N → ∀ g,
        rows.getD i (fun _ => 0) g =
          (if (subset.filter (fun c =>
              binIdx (ptMin subset) (ptMax subset) N c.pt == i)).isEmpty then 0
           else mean ((subset.filter (fun c =>
              binIdx (ptMin subset) (ptMax subset) N c.pt == i)).map
              (fun c => c.expr g)))) ∧
      edge (ptMin subset) (ptMax subset) N 0 = ptMin subset ∧
      ptMin subset ≤ edge (ptMin subset) (ptMax subset) N 1 ∧
      edge (ptMin subset) (ptMax subset) N (N - 1) ≤ ptMax subset ∧
      edge (ptMin subset) (ptMax subset) N N = ptMax subset := by
  have hN0 : N ≠ 0 := Nat.pos_iff_ne_zero.mp hN
  refine ⟨_, _, get_grouped_data_eq_some subset N hne hN hlt,
    by simp, by simp, ?_, ?_, ?_, edge_zero _ _ _, ?_, ?_, edge_last _ _ _ hN0⟩
  · intro i hi
    simp [List.getD_eq_getElem?_getD, List.getElem?_map, List.getElem?_range, hi]
  · intro c hc
    have hcl := ptMin_le hc
    have hcu := le_ptMax hc
    have hv : c.pt ≤ edge (ptMin subset) (ptMax subset) N N := by
      rw [edge_last _ _ _ hN0]
      exact hcu
    obtain ⟨h1, h2, h3⟩ := binIdx_spec (ptMin subset) (ptMax subset) N c.pt hN hv
    exact ⟨h1, inBin_binIdx _ _ _ _ hlt hN hcl hcu,
      fun i hi hib => inBin_eq_binIdx _ _ _ i _ hlt hN hcu hi hib⟩
  · intro i hi g
    simp [List.getD_eq_getElem?_getD, List.getElem?_map, List.getElem?_range, hi]
  · have h01 := edge_lt_edge (ptMin subset) (ptMax subset) N hlt hN
      (show 0 < 1 by omega)
    rw [edge_zero] at h01
    exact le_of_lt h01
  · have hle := edge_le_edge (ptMin subset) (ptMax subset) N hlt hN
      (show N - 1 ≤ N by omega)
    rwa [edge_last _ _ _ hN0] at hle

/-- C3, witness: the binner succeeds on the two-cell subset with
pseudotimes 0 and 1 at bin count 2. -/
theorem c3_binner_witness : (get_grouped_data [cellLo, cellHi] 2).isSome = true := by
  obtain ⟨rows, ctrs, hsome, -⟩ := c3_binner_spec [cellLo, cellHi] 2 rfl (by norm_num)
    (by norm_num [ptMin, ptMax, cellLo, cellHi, mkCell])
  rw [hsome]
  rfl

theorem earlyDerivMean_truncate (w : ℤ → ℚ) (cfg : Config) (inp : Input)
    (tct g n : String) (h : cfg.numBins ≤ cfg.earlyPhaseBins)
    (rows : List (String → ℚ)) (ctrs : List ℚ)
    (hsome : get_grouped_data (nicheSub inp tct n) cfg.numBins = some (rows, ctrs)) :
    earlyDerivMean w {cfg with earlyPhaseBins := cfg.numBins} inp tct g n =
      earlyDerivMean w cfg inp tct g n := by
  unfold earlyDerivMean
  dsimp only
  have hlen1 : (binnedTraj inp tct n cfg.numBins g).length = cfg.numBins :=
    binnedTraj_length inp tct n cfg.numBins g rows ctrs hsome
  have hlen : (npGrad (gaussSmooth w (binnedTraj inp tct n cfg.numBins g))
      (binWidth (nicheSub inp tct n) cfg.numBins)).length = cfg.numBins := by
    rw [npGrad_length, gaussSmooth_length, hlen1]
  rw [List.take_of_length_le (le_of_eq hlen), List.take_of_length_le (by omega)]

theorem stage3Loop_truncate (w : ℤ → ℚ) (cfg : Config) (inp : Input)
    (tct g : String) (h : cfg.numBins ≤ cfg.earlyPhaseBins) :
    ∀ l : List String,
      stage3Loop w {cfg with earlyPhaseBins := cfg.numBins} inp tct g l =
        stage3Loop w cfg inp tct g l := by
  intro l
  induction l with
  | nil => rfl
  | cons n rest ih =>
    simp only [stage3Loop]
    dsimp only
    by_cases hemp : (nicheSub inp tct n).isEmpty = true
    · rw [if_pos hemp, if_pos hemp]
    · rw [if_neg hemp, if_neg hemp]
      cases hgg : get_grouped_data (nicheSub inp tct n) cfg.numBins with
      | none => rfl
      | some r =>
        obtain ⟨rows, ctrs⟩ := r
        dsimp only
        by_cases hb2 : cfg.numBins < 2
        · rw [if_pos hb2, if_pos hb2]
        · rw [if_neg hb2, if_neg hb2]
          have hedm := earlyDerivMean_truncate w cfg inp tct g n h rows ctrs hgg
          rw [hedm]
          have hepb1 : cfg.numBins ≠ 0 := by omega
          have hepb2 : cfg.earlyPhaseBins ≠ 0 := by omega
          by_cases hem : earlyDerivMean w cfg inp tct g n ≤ 0
          · rw [if_pos ⟨hepb1, hem⟩, if_pos ⟨hepb2, hem⟩]
          · rw [if_neg (fun hc => hem hc.2), if_neg (fun hc => hem hc.2), ih]

theorem stage3Filter_truncate (w : ℤ → ℚ) (cfg : Config) (inp : Input)
    (tct : String) (h : cfg.numBins ≤ cfg.earlyPhaseBins) :
    ∀ gs : List String,
      stage3Filter w {cfg with earlyPhaseBins := cfg.numBins} inp tct gs =
        stage3Filter w cfg inp tct gs := by
  intro gs
  induction gs with
  | nil => rfl
  | cons g rest ih =>
    simp only [stage3Filter]
    rw [stage3Loop_truncate w cfg inp tct g h cfg.fibroticNiches, ih]

/-- C6, counterexample.  `cfgC6` has an early-phase window (3) larger than
the total bin count (2) — per the claim an impossible configuration that
must be rejected as a global fatal error before any per-gene work with no
output.  Instead the cascade performs no configuration validation: on
`inpC6` it runs all four stages to completion and returns the normal
survivor list `["g"]`. -/
theorem c6_no_config_validation_counterexample :
    cfgC6.numBins < cfgC6.earlyPhaseBins ∧
    filter_genes_by_conditions w0 cfgC6 inpC6 "T" = some ["g"] := by
  refine ⟨by norm_num [cfgC6], ?_⟩
  have h1 : stage1 cfgC6 inpC6 "T" = ["g"] := by
    simp [stage1, targetCells, inpC6, cellLo, cellHi, mkCell, cfgC6, mean] <;> norm_num
  have h2 : stage2 cfgC6 inpC6 "T" ["g"] = ["g"] := by
    simp [stage2, expressing, targetCells, isFib, inpC6, cellLo, cellHi, mkCell, cfgC6]
  have hsub : nicheSub inpC6 "T" "F" = [cellLo, cellHi] := by
    simp [nicheSub, targetCells, inpC6, cellLo, cellHi, mkCell]
  have htraj : binnedTraj inpC6 "T" "F" 2 "g" = [0, 4] := by
    simp only [binnedTraj, hsub]
    norm_num [get_grouped_data, cellLo, cellHi, mkCell, ptMin, ptMax, binIdx, binIdxGo,
      edge, mean, List.range_succ]
  have hsm : gaussSmooth w0 [0, 4] = [0, 4] := by
    norm_num [gaussSmooth, w0, reflectIdx, List.range_succ]
  have hbw : binWidth (nicheSub inpC6 "T" "F") 2 = 1 / 2 := by
    rw [hsub]
    norm_num [binWidth, cellLo, cellHi, mkCell, ptMin, ptMax]
  have hgr : npGrad [0, 4] (1 / 2) = [8, 8] := by
    norm_num [npGrad, List.range_succ]
  have hedm : earlyDerivMean w0 cfgC6 inpC6 "T" "g" "F" = 8 := by
    unfold earlyDerivMean
    have hnb : cfgC6.numBins = 2 := rfl
    have hep : cfgC6.earlyPhaseBins = 3 := rfl
    rw [hnb, hep, htraj, hbw, hsm, hgr]
    norm_num [mean]
  have h3 : stage3Loop w0 cfgC6 inpC6 "T" "g" cfgC6.fibroticNiches = some true := by
    rw [stage3Loop_true_iff w0 cfgC6 inpC6 "T" "g" (by norm_num [cfgC6]) (by norm_num [cfgC6])
      cfgC6.fibroticNiches (by
        intro n hn hne
        have hn2 : n = "F" := by simpa [cfgC6] using hn
        subst hn2
        rw [hsub]
        norm_num [ptMin, ptMax, cellLo, cellHi, mkCell])]
    intro n hn
    have hn2 : n = "F" := by simpa [cfgC6] using hn
    subst hn2
    refine ⟨by simp [hsub], ?_⟩
    rw [hedm]
    norm_num
  have h4 : stage3Filter w0 cfgC6 inpC6 "T" ["g"] = some ["g"] := by
    rw [stage3Filter, h3]
    rfl
  have h5 : stage4 cfgC6 inpC6 "T" ["g"] = ["g"] := by
    have hrm : remoteCells cfgC6 inpC6 "T" = [mkCell "T" "R" 0 0 0 (fun _ => 1)] := by
      simp [remoteCells, targetCells, inpC6, cellLo, cellHi, cfgC6, mkCell]
    have hfb : fibCells cfgC6 inpC6 "T" = [cellLo, cellHi] := by
      simp [fibCells, targetCells, isFib, inpC6, cellLo, cellHi, cfgC6, mkCell]
    simp only [stage4, hrm, hfb, List.filter_cons, List.filter_nil, List.map_cons,
      List.map_nil, List.all_cons, List.all_nil, List.isEmpty, mkCell, cellLo, cellHi]
    norm_num [mean, eps, cfgC6]
  unfold filter_genes_by_conditions
  rw [h1, h2, h4]
  simp [h5]

/-- C6, amended.  The code performs no configuration validation at all.
An early-phase window at least as large as the bin count is silently
truncated by the slice `[:early_phase_bins]` to the available derivative
samples: the cascade's result is identical to running it with
`early_phase_bins = num_bins`.  (A non-positive bin count is not rejected
up front either: it surfaces only as the stage-3 binning failure — the
`none` of `get_grouped_data` — after stages 1 and 2 have already done
their per-gene work, as the C10 theorem shows for the degenerate case.) -/
theorem c6_early_window_truncation (w : ℤ → ℚ) (cfg : Config) (inp : Input)
    (tct : String) (h : cfg.numBins ≤ cfg.earlyPhaseBins) :
    filter_genes_by_conditions w cfg inp tct =
      filter_genes_by_conditions w {cfg with earlyPhaseBins := cfg.numBins} inp tct := by
  unfold filter_genes_by_conditions
  exact congrArg (Option.map (stage4 cfg inp tct))
    (stage3Filter_truncate w cfg inp tct h
      (stage2 cfg inp tct (stage1 cfg inp tct))).symm

/-- C6, witness: on `cfgC6` (window 3, bins 2) the cascade's output equals
the output with the window truncated to the bin count. -/
theorem c6_early_window_truncation_witness :
    filter_genes_by_conditions w0 cfgC6 inpC6 "T" =
      filter_genes_by_conditions w0 {cfgC6 with earlyPhaseBins := cfgC6.numBins} inpC6 "T" :=
  c6_early_window_truncation w0 cfgC6 inpC6 "T" (by norm_num [cfgC6])

end Xenium
